import Mathlib

/-!
Verification development for the fake-dns responder (src/main.rs).

The program has two components:

* `Ipv4` — the address pool.  `Ipv4.from_cidr` parses a CIDR string with
  the external `ipnetwork` crate, computes `range = 1 << (32 - prefix)`
  with `u32::checked_shl`, rejects ranges `≤ 2`, and stores the masked
  network base address.  `Ipv4.get_ip` samples a random offset in
  `1 .. range - 1` and returns `base + offset`.

* `query` — the DNS responder.  It decodes the request bytes with the
  external hickory-proto decoder (`Message::from_bytes`), takes the first
  question, and builds the response message.

External collaborators (the hickory wire decoder and the random number
generator) are parameterized: `query` receives the decoding function as
an argument, and `get_ip` receives the sampled offset, whose range
`1 ≤ offset < range - 1` is the contract of `rand`'s `gen_range`.  The
CIDR string parser of the `ipnetwork` crate is modelled concretely below
so that the pool construction is executable end to end.

Machine integers (`u32`) are modelled as `Nat` with explicit `% 2 ^ 32`
where the source can overflow.
-/

namespace FakeDns

/-! ## DNS message model (the hickory-proto subset touched by `query`) -/

/-- Wire message type flag (QR bit): query or response. -/
inductive MessageType
  | Query
  | Response
deriving DecidableEq

/-- DNS operation code.  Only `Query` (standard query) is ever set by the
program; the other variants exist on the wire. -/
inductive OpCode
  | Query
  | Status
  | Notify
  | Update
deriving DecidableEq

/-- DNS response code.  Only `NoError` is ever set by the program; the
other variants exist on the wire. -/
inductive ResponseCode
  | NoError
  | FormErr
  | ServFail
  | NXDomain
  | NotImp
  | Refused
deriving DecidableEq

/-- One entry of the question section: a domain name together with the
queried record type and class (wire values: record type A = 1,
class IN = 1). -/
structure Query where
  name : String
  query_type : Nat
  query_class : Nat
deriving DecidableEq

/-- Record data of an answer.  The program only ever constructs
`RData::A`, an IPv4 address payload (stored here as the numeric `u32`
value of the address). -/
inductive RData
  | A (addr : Nat)
deriving DecidableEq

/-- Wire value of the record type carried by a record data value
(A = 1), as hickory derives the record type from the `RData` variant. -/
def RData.record_type : RData → Nat
  | .A _ => 1

/-- A resource record: name, time to live and record data. -/
structure Record where
  name : String
  ttl : Nat
  rdata : RData
deriving DecidableEq

/-- `Record::from_rdata(name, ttl, rdata)`. -/
def Record.from_rdata (name : String) (ttl : Nat) (rdata : RData) : Record :=
  ⟨name, ttl, rdata⟩

/-- A DNS message, restricted to the header fields and sections that
`query` reads or writes. -/
structure Message where
  id : Nat
  message_type : MessageType
  op_code : OpCode
  response_code : ResponseCode
  queries : List Query
  answers : List Record
deriving DecidableEq

/-- `Message::new()`: default header (id 0, type query, op-code query,
no-error response code) and empty sections. -/
def Message.new : Message :=
  ⟨0, .Query, .Query, .NoError, [], []⟩

/-- `Message::set_id`. -/
def Message.set_id (m : Message) (i : Nat) : Message :=
  { m with id := i }

/-- `Message::set_message_type`. -/
def Message.set_message_type (m : Message) (t : MessageType) : Message :=
  { m with message_type := t }

/-- `Message::set_op_code`. -/
def Message.set_op_code (m : Message) (c : OpCode) : Message :=
  { m with op_code := c }

/-- `Message::set_response_code`. -/
def Message.set_response_code (m : Message) (c : ResponseCode) : Message :=
  { m with response_code := c }

/-- `Message::add_query`: appends one question. -/
def Message.add_query (m : Message) (q : Query) : Message :=
  { m with queries := m.queries ++ [q] }

/-- `Message::add_answer`: appends one answer record. -/
def Message.add_answer (m : Message) (r : Record) : Message :=
  { m with answers := m.answers ++ [r] }

/-- The error enumeration `MyError` of the program. -/
inductive MyError
  | IpNotEnough
  | Proto
  | Ipv4Network
  | EmptyQuery
deriving DecidableEq

/-! ## The query responder -/

/-- The `query` function of the program.  The hickory decoder
`Message::from_bytes` is an external library call and is passed in as
`from_bytes`; a decoding failure of any kind is mapped to
`MyError::Proto` by the source (`.or(Err(MyError::Proto))`).  The
address supplier closure `fake_ip` is called exactly once.

```rust
let request = Message::from_bytes(data).or(Err(MyError::Proto))?;
let query = request.queries().first().ok_or(MyError::EmptyQuery)?;
let mut response = Message::new();
response.set_id(request.id());
response.set_message_type(MessageType::Response);
response.set_op_code(OpCode::Query);
response.set_response_code(ResponseCode::NoError);
response.add_query(query.clone());
let record = Record::from_rdata(query.name().clone(), 600, RData::A(fake_ip().into()));
response.add_answer(record);
Ok(response)
```
-/
def query (from_bytes : List Nat → Option Message) (data : List Nat)
    (fake_ip : Unit → Nat) : Except MyError Message :=
  match from_bytes data with
  | none => .error .Proto
  | some request =>
    match request.queries.head? with
    | none => .error .EmptyQuery
    | some q =>
      let response := Message.new
      let response := response.set_id request.id
      let response := response.set_message_type .Response
      let response := response.set_op_code .Query
      let response := response.set_response_code .NoError
      let response := response.add_query q
      let record := Record.from_rdata q.name 600 (RData.A (fake_ip ()))
      let response := response.add_answer record
      .ok response

/-! ## The address pool -/

/-- Result of parsing a CIDR string: the written address and prefix
length (`ipnetwork::Ipv4Network`). -/
structure Ipv4Network where
  addr : Nat
  prefix_len : Nat
deriving DecidableEq

/-- Split a character list at every occurrence of a separator. -/
def splitOnChar (sep : Char) : List Char → List (List Char)
  | [] => [[]]
  | c :: rest =>
    let r := splitOnChar sep rest
    if c = sep then [] :: r
    else
      match r with
      | [] => [[c]]
      | h :: t => (c :: h) :: t

/-- Value of a non-empty all-digit character list, `none` otherwise. -/
def digitsToNat : List Char → Option Nat
  | [] => none
  | l =>
    if l.all Char.isDigit then
      some (l.foldl (fun a c => 10 * a + (c.toNat - 48)) 0)
    else none

/-- Modelled from the spec: one dotted-decimal octet of an IPv4 address,
as parsed by the Rust standard library inside the external `ipnetwork`
crate (decimal, at most 255, no leading zero). -/
def parseOctet (l : List Char) : Option Nat :=
  match digitsToNat l with
  | none => none
  | some v =>
    if v ≤ 255 ∧ (l.length = 1 ∨ l.head? ≠ some ('0')) then some v else none

/-- Modelled from the spec: a dotted-decimal IPv4 address, returned as
its numeric `u32` value (the external crate's address parsing). -/
def parseIpv4 (l : List Char) : Option Nat :=
  match splitOnChar '.' l with
  | [a, b, c, d] =>
    match parseOctet a, parseOctet b, parseOctet c, parseOctet d with
    | some va, some vb, some vc, some vd =>
      some (va * 16777216 + vb * 65536 + vc * 256 + vd)
    | _, _, _, _ => none
  | _ => none

/-- Modelled from the spec: the prefix length after the slash, parsed as
a `u8` (hence at most 255) and rejected when above 32, as the external
`ipnetwork` crate does. -/
def parsePrefix (l : List Char) : Option Nat :=
  match digitsToNat l with
  | none => none
  | some v =>
    if v ≤ 255 then (if v ≤ 32 then some v else none) else none

/-- Modelled from the spec: `cidr.parse::<Ipv4Network>()` of the
external `ipnetwork` crate — a string in CIDR notation, e.g.
`192.168.0.0/16`; a bare address is a `/32`. -/
def parseCidr (s : String) : Option Ipv4Network :=
  match splitOnChar '/' s.data with
  | [a, p] =>
    match parseIpv4 a, parsePrefix p with
    | some addr, some pre => some ⟨addr, pre⟩
    | _, _ => none
  | [a] =>
    match parseIpv4 a with
    | some addr => some ⟨addr, 32⟩
    | none => none
  | _ => none

/-- The masked network address `network()` of an `Ipv4Network`: the
written address with its host bits cleared. -/
def Ipv4Network.network (n : Ipv4Network) : Nat :=
  n.addr / 2 ^ (32 - n.prefix_len) * 2 ^ (32 - n.prefix_len)

/-- Rust `u32::checked_shl`: `none` when the shift amount is at least
the bit width, otherwise the shifted value truncated to 32 bits. -/
def checked_shl (x n : Nat) : Option Nat :=
  if 32 ≤ n then none else some (x * 2 ^ n % 2 ^ 32)

/-- The address pool `struct Ipv4 \x7b base: u32, range: u32 \x7d`. -/
structure Ipv4 where
  base : Nat
  range : Nat
deriving DecidableEq

/-- `Ipv4::from_cidr`:

```rust
let network = cidr.parse::<Ipv4Network>().or(Err(MyError::Ipv4Network))?;
let mask = network.prefix();
let range = 1u32
    .checked_shl(32 - mask as u32)
    .and_then(|r| if r <= 2 \x7b None \x7d else \x7b Some(r) \x7d)
    .ok_or(MyError::IpNotEnough)?;
Ok(Self \x7b base: u32::from(network.network()), range \x7d)
```
-/
def Ipv4.from_cidr (cidr : String) : Except MyError Ipv4 :=
  match parseCidr cidr with
  | none => .error .Ipv4Network
  | some network =>
    let mask := network.prefix_len
    match (checked_shl 1 (32 - mask)).bind
        (fun r => if r ≤ 2 then none else some r) with
    | none => .error .IpNotEnough
    | some range => .ok ⟨network.network, range⟩

/-- `Ipv4::get_ip`.  The random offset drawn by `rng.gen_range(1..self.range - 1)`
is passed in as `offset`; the `u32` addition `self.base + offset` is
modelled with its 32-bit wrap so that absence of overflow is a theorem,
not an assumption. -/
def Ipv4.get_ip (self : Ipv4) (offset : Nat) : Nat :=
  (self.base + offset) % 2 ^ 32

/-! ## Helper lemmas about the parser and the pool construction -/

/-- A parsed octet is at most 255. -/
lemma parseOctet_le (l : List Char) (v : Nat) (h : parseOctet l = some v) :
    v ≤ 255 := by
  unfold parseOctet at h
  split at h
  · exact absurd h (by simp)
  · split at h
    · rename_i hcond
      cases h
      exact hcond.1
    · exact absurd h (by simp)

/-- A parsed IPv4 address fits in 32 bits. -/
lemma parseIpv4_lt (l : List Char) (v : Nat) (h : parseIpv4 l = some v) :
    v < 2 ^ 32 := by
  unfold parseIpv4 at h
  split at h
  · rename_i a b c d heq
    cases ha : parseOctet a with
    | none => rw [ha] at h; simp at h
    | some va =>
      cases hb : parseOctet b with
      | none => rw [ha, hb] at h; simp at h
      | some vb =>
        cases hc : parseOctet c with
        | none => rw [ha, hb, hc] at h; simp at h
        | some vc =>
          cases hd : parseOctet d with
          | none => rw [ha, hb, hc, hd] at h; simp at h
          | some vd =>
            rw [ha, hb, hc, hd] at h
            simp only [Option.some.injEq] at h
            have la := parseOctet_le a va ha
            have lb := parseOctet_le b vb hb
            have lc := parseOctet_le c vc hc
            have ld := parseOctet_le d vd hd
            have h32 : (2 : Nat) ^ 32 = 4294967296 := by norm_num
            omega
  · exact absurd h (by simp)

/-- A parsed CIDR block's written address fits in 32 bits. -/
lemma parseCidr_addr_lt (s : String) (n : Ipv4Network) (h : parseCidr s = some n) :
    n.addr < 2 ^ 32 := by
  unfold parseCidr at h
  split at h
  · rename_i a p heq
    cases ha : parseIpv4 a with
    | none => rw [ha] at h; simp at h
    | some addr =>
      cases hp : parsePrefix p with
      | none => rw [ha, hp] at h; simp at h
      | some pre =>
        rw [ha, hp] at h
        simp only [Option.some.injEq] at h
        rw [← h]
        exact parseIpv4_lt a addr ha
  · rename_i a heq
    cases ha : parseIpv4 a with
    | none => rw [ha] at h; simp at h
    | some addr =>
      rw [ha] at h
      simp only [Option.some.injEq] at h
      rw [← h]
      exact parseIpv4_lt a addr ha
  · exact absurd h (by simp)

/-- Inversion of a successful pool construction: the base is the masked
network address, the range is the full power of two `2 ^ (32 - prefix)`,
the shift did not overflow, and the range is strictly larger than 2. -/
lemma from_cidr_ok_inv (cidr : String) (n : Ipv4Network) (pool : Ipv4)
    (hp : parseCidr cidr = some n) (hok : Ipv4.from_cidr cidr = Except.ok pool) :
    pool.base = n.network ∧ pool.range = 2 ^ (32 - n.prefix_len) ∧
      32 - n.prefix_len < 32 ∧ 2 < pool.range := by
  unfold Ipv4.from_cidr at hok
  rw [hp] at hok
  dsimp only at hok
  by_cases h32 : 32 ≤ 32 - n.prefix_len
  · simp [checked_shl, h32] at hok
  · have hlt : (2 : Nat) ^ (32 - n.prefix_len) < 2 ^ 32 :=
      Nat.pow_lt_pow_right (by norm_num) (Nat.lt_of_not_le h32)
    have hshl : checked_shl 1 (32 - n.prefix_len) = some (2 ^ (32 - n.prefix_len)) := by
      unfold checked_shl
      rw [if_neg h32, one_mul, Nat.mod_eq_of_lt hlt]
    rw [hshl] at hok
    by_cases hle : (2 : Nat) ^ (32 - n.prefix_len) ≤ 2
    · simp [Option.bind, hle] at hok
    · simp only [Option.bind, if_neg hle] at hok
      cases hok
      exact ⟨rfl, rfl, Nat.lt_of_not_le h32, Nat.lt_of_not_le hle⟩

/-- The masked base plus the block size never exceeds `2 ^ 32`: the
`u32` addition in `get_ip` cannot overflow. -/
lemma network_add_range_le (n : Ipv4Network) (haddr : n.addr < 2 ^ 32) :
    n.network + 2 ^ (32 - n.prefix_len) ≤ 2 ^ 32 := by
  have hdiv : n.addr / 2 ^ (32 - n.prefix_len) < 2 ^ (32 - (32 - n.prefix_len)) := by
    rw [Nat.div_lt_iff_lt_mul (Nat.pos_pow_of_pos _ (by norm_num))]
    calc n.addr < 2 ^ 32 := haddr
    _ = 2 ^ (32 - (32 - n.prefix_len)) * 2 ^ (32 - n.prefix_len) := by
        rw [← pow_add]
        congr 1
        omega
  unfold Ipv4Network.network
  calc n.addr / 2 ^ (32 - n.prefix_len) * 2 ^ (32 - n.prefix_len) + 2 ^ (32 - n.prefix_len)
      = (n.addr / 2 ^ (32 - n.prefix_len) + 1) * 2 ^ (32 - n.prefix_len) := by ring
  _ ≤ 2 ^ (32 - (32 - n.prefix_len)) * 2 ^ (32 - n.prefix_len) :=
      Nat.mul_le_mul_right _ hdiv
  _ = 2 ^ 32 := by
      rw [← pow_add]
      congr 1
      omega

/-- The masked base is a multiple of the block size. -/
lemma network_mod_range (n : Ipv4Network) :
    n.network % 2 ^ (32 - n.prefix_len) = 0 := by
  unfold Ipv4Network.network
  exact Nat.mul_mod_left _ _

/-- Closed form of a successful `query`: whenever the request decodes
and its question section starts with `q`, the result is exactly the
response message built by the source. -/
lemma query_eq_ok (from_bytes : List Nat → Option Message) (data : List Nat)
    (fake_ip : Unit → Nat) (req : Message) (q : Query) (qs : List Query)
    (hdec : from_bytes data = some req) (hq : req.queries = q :: qs) :
    query from_bytes data fake_ip =
      Except.ok ⟨req.id, .Response, .Query, .NoError, [q],
        [Record.from_rdata q.name 600 (RData.A (fake_ip ()))]⟩ := by
  unfold query
  rw [hdec]
  dsimp only
  rw [hq]
  rfl

/-! ## Concrete example inputs used by the witnesses -/

/-- Example domain name. -/
def exName : String := "example.com."

/-- Example question: A record (type 1), class IN (1). -/
def exQuestion : Query := ⟨exName, 1, 1⟩

/-- Example question of a non-A type (TXT, type 16). -/
def exQuestionTxt : Query := ⟨"other.example.", 16, 1⟩

/-- Example request with one question and transaction id 0x1234. -/
def exRequest : Message := ⟨4660, .Query, .Query, .NoError, [exQuestion], []⟩

/-- Example request with an empty question section. -/
def exRequestNoQ : Message := ⟨7, .Query, .Query, .NoError, [], []⟩

/-- Example request with two questions, the first of non-A type. -/
def exRequestTwoQ : Message := ⟨4660, .Query, .Query, .NoError, [exQuestionTxt, exQuestion], []⟩

/-- Decoder instance that decodes everything to `exRequest`. -/
def exDecode : List Nat → Option Message := fun _ => some exRequest

/-- Decoder instance that decodes everything to `exRequestNoQ`. -/
def exDecodeNoQ : List Nat → Option Message := fun _ => some exRequestNoQ

/-- Decoder instance that decodes everything to `exRequestTwoQ`. -/
def exDecodeTwoQ : List Nat → Option Message := fun _ => some exRequestTwoQ

/-- Decoder instance that rejects every input. -/
def exDecodeNone : List Nat → Option Message := fun _ => none

/-- Example address supplier returning 192.168.1.1. -/
def exIp : Unit → Nat := fun _ => 3232235777

/-- Example CIDR strings. -/
def cidrExample : String := "192.167.0.0/16"

/-- CIDR string with prefix length 0. -/
def cidrSlashZero : String := "0.0.0.0/0"

/-- CIDR string with prefix length 31. -/
def cidrSlash31 : String := "10.0.0.0/31"

/-! ## Claim theorems -/

/-- Claim C1: for every request that decodes to a DNS message with a
non-empty question section, `query` succeeds and returns a response
whose transaction id equals the request's, whose question section is
exactly the one-element list holding the request's first question, and
whose answer section is exactly one record with that question's name,
record type A, time-to-live 600, and the address returned by the
supplied address function as payload. -/
theorem query_ok_first_question (from_bytes : List Nat → Option Message)
    (data : List Nat) (fake_ip : Unit → Nat) (req : Message) (q : Query)
    (qs : List Query) (hdec : from_bytes data = some req)
    (hq : req.queries = q :: qs) :
    ∃ resp : Message, query from_bytes data fake_ip = Except.ok resp ∧
      resp.id = req.id ∧ resp.queries = [q] ∧
      resp.answers = [Record.from_rdata q.name 600 (RData.A (fake_ip ()))] := by
  refine ⟨_, query_eq_ok from_bytes data fake_ip req q qs hdec hq, rfl, rfl, rfl⟩

/-- Claim C1 witness: the theorem applied to a concrete one-question
request. -/
theorem query_ok_first_question_witness :
    ∃ resp : Message, query exDecode [] exIp = Except.ok resp ∧
      resp.id = exRequest.id ∧ resp.queries = [exQuestion] ∧
      resp.answers = [Record.from_rdata exQuestion.name 600 (RData.A (exIp ()))] :=
  query_ok_first_question exDecode [] exIp exRequest exQuestion [] rfl rfl

/-- Claim C4: for every request that decodes to a DNS message with an
empty question section, `query` fails with `MyError::EmptyQuery` and
returns no response message. -/
theorem query_empty_question_section (from_bytes : List Nat → Option Message)
    (data : List Nat) (fake_ip : Unit → Nat) (req : Message)
    (hdec : from_bytes data = some req) (hq : req.queries = []) :
    query from_bytes data fake_ip = Except.error MyError.EmptyQuery := by
  unfold query
  rw [hdec]
  dsimp only
  rw [hq]
  rfl

/-- Claim C4 witness: the theorem applied to a concrete question-less
request. -/
theorem query_empty_question_section_witness :
    query exDecodeNoQ [] exIp = Except.error MyError.EmptyQuery :=
  query_empty_question_section exDecodeNoQ [] exIp exRequestNoQ rfl rfl

/-- Claim C5: for every request byte sequence the decoder rejects,
`query` fails with `MyError::Proto` and returns no response message. -/
theorem query_undecodable (from_bytes : List Nat → Option Message)
    (data : List Nat) (fake_ip : Unit → Nat) (hdec : from_bytes data = none) :
    query from_bytes data fake_ip = Except.error MyError.Proto := by
  unfold query
  rw [hdec]

/-- Claim C5 witness: the theorem applied to the empty byte sequence
under a decoder that rejects it. -/
theorem query_undecodable_witness :
    query exDecodeNone [] exIp = Except.error MyError.Proto :=
  query_undecodable exDecodeNone [] exIp rfl

/-- Claim C7: for every request that decodes with at least one question,
the response message has message type response, operation code standard
query, and response code no-error — the protocol level never signals
failure for such a request. -/
theorem query_response_flags (from_bytes : List Nat → Option Message)
    (data : List Nat) (fake_ip : Unit → Nat) (req : Message) (q : Query)
    (qs : List Query) (hdec : from_bytes data = some req)
    (hq : req.queries = q :: qs) :
    ∃ resp : Message, query from_bytes data fake_ip = Except.ok resp ∧
      resp.message_type = MessageType.Response ∧
      resp.op_code = OpCode.Query ∧
      resp.response_code = ResponseCode.NoError := by
  refine ⟨_, query_eq_ok from_bytes data fake_ip req q qs hdec hq, rfl, rfl, rfl⟩

/-- Claim C7 witness: the theorem applied to a concrete one-question
request. -/
theorem query_response_flags_witness :
    ∃ resp : Message, query exDecode [] exIp = Except.ok resp ∧
      resp.message_type = MessageType.Response ∧
      resp.op_code = OpCode.Query ∧
      resp.response_code = ResponseCode.NoError :=
  query_response_flags exDecode [] exIp exRequest exQuestion [] rfl rfl

/-- Claim C8: for every request that decodes with two or more questions,
or whose first question is not of record type A (wire value 1), `query`
still succeeds; the response is the one computed from the request with
every question after the first dropped, and the single answer record
carries record type A regardless of the requested type. -/
theorem query_first_question_only (from_bytes : List Nat → Option Message)
    (data : List Nat) (fake_ip : Unit → Nat) (req : Message) (q : Query)
    (qs : List Query) (hdec : from_bytes data = some req)
    (hq : req.queries = q :: qs)
    (hextra : qs ≠ [] ∨ q.query_type ≠ 1) :
    query from_bytes data fake_ip =
      query (fun _ => some { req with queries := [q] }) data fake_ip ∧
    ∃ resp : Message, query from_bytes data fake_ip = Except.ok resp ∧
      resp.answers.map (fun r => r.rdata.record_type) = [1] := by
  have h1 := query_eq_ok from_bytes data fake_ip req q qs hdec hq
  have h2 := query_eq_ok (fun _ => some { req with queries := [q] }) data
    fake_ip { req with queries := [q] } q [] rfl rfl
  exact ⟨by rw [h1, h2], _, h1, rfl⟩

/-- Claim C8 witness: the theorem applied to a concrete request with two
questions whose first question has the TXT type. -/
theorem query_first_question_only_witness :
    query exDecodeTwoQ [] exIp =
      query (fun _ => some { exRequestTwoQ with queries := [exQuestionTxt] }) [] exIp ∧
    ∃ resp : Message, query exDecodeTwoQ [] exIp = Except.ok resp ∧
      resp.answers.map (fun r => r.rdata.record_type) = [1] :=
  query_first_question_only exDecodeTwoQ [] exIp exRequestTwoQ exQuestionTxt
    [exQuestion] rfl rfl (Or.inl (List.cons_ne_nil _ _))

/-- Claim C9: whenever `query` fails with an error, there is no response
message at all — the result is never both an error and a message. -/
theorem query_error_no_response (from_bytes : List Nat → Option Message)
    (data : List Nat) (fake_ip : Unit → Nat) (e : MyError)
    (h : query from_bytes data fake_ip = Except.error e) :
    ¬∃ m : Message, query from_bytes data fake_ip = Except.ok m := by
  rintro ⟨m, hm⟩
  rw [h] at hm
  exact Except.noConfusion hm

/-- Claim C9 witness: the theorem applied to a concrete failing input. -/
theorem query_error_no_response_witness :
    ¬∃ m : Message, query exDecodeNone [] exIp = Except.ok m :=
  query_error_no_response exDecodeNone [] exIp MyError.Proto rfl

/-- Claim C2 counterexample: `0.0.0.0/0` is a syntactically valid IPv4
CIDR string with prefix length 0, yet `from_cidr` does not succeed on
it — `1u32.checked_shl(32)` returns `None`, so construction fails with
`MyError::IpNotEnough` instead of producing a pool of range `2 ^ 32`. -/
theorem from_cidr_prefix_zero_counterexample :
    parseCidr cidrSlashZero = some ⟨0, 0⟩ ∧
    Ipv4.from_cidr cidrSlashZero = Except.error MyError.IpNotEnough ∧
    ¬∃ pool : Ipv4, Ipv4.from_cidr cidrSlashZero = Except.ok pool := by
  refine ⟨by decide, rfl, ?_⟩
  rintro ⟨pool, hpool⟩
  rw [show Ipv4.from_cidr cidrSlashZero = Except.error MyError.IpNotEnough from rfl]
    at hpool
  exact Except.noConfusion hpool

/-- Claim C2 (amended): for every syntactically valid IPv4 CIDR string
with prefix length between 1 and 30, `from_cidr` succeeds and the
resulting pool's range equals `2 ^ (32 - prefix length)`; prefix length
0 instead fails with `MyError::IpNotEnough`, because the 32-bit shift
`1 << 32` overflows. -/
theorem from_cidr_range_pow (cidr : String) (n : Ipv4Network)
    (hp : parseCidr cidr = some n) (h1 : 1 ≤ n.prefix_len)
    (h30 : n.prefix_len ≤ 30) :
    ∃ pool : Ipv4, Ipv4.from_cidr cidr = Except.ok pool ∧
      pool.range = 2 ^ (32 - n.prefix_len) := by
  have he32 : 32 - n.prefix_len < 32 := by omega
  have hlt : (2 : Nat) ^ (32 - n.prefix_len) < 2 ^ 32 :=
    Nat.pow_lt_pow_right (by norm_num) he32
  have hgt : 2 < (2 : Nat) ^ (32 - n.prefix_len) := by
    calc (2 : Nat) < 2 ^ 2 := by norm_num
    _ ≤ 2 ^ (32 - n.prefix_len) := Nat.pow_le_pow_right (by norm_num) (by omega)
  refine ⟨⟨n.network, 2 ^ (32 - n.prefix_len)⟩, ?_, rfl⟩
  unfold Ipv4.from_cidr
  rw [hp]
  dsimp only
  have hshl : checked_shl 1 (32 - n.prefix_len) = some (2 ^ (32 - n.prefix_len)) := by
    unfold checked_shl
    rw [if_neg (by omega), one_mul, Nat.mod_eq_of_lt hlt]
  rw [hshl]
  simp only [Option.bind, if_neg (Nat.not_le.mpr hgt)]

/-- Claim C2 witness (amended form): the theorem applied to the concrete
string `192.167.0.0/16`. -/
theorem from_cidr_range_pow_witness :
    ∃ pool : Ipv4, Ipv4.from_cidr cidrExample = Except.ok pool ∧
      pool.range = 2 ^ (32 - (Ipv4Network.mk 3232169984 16).prefix_len) :=
  from_cidr_range_pow cidrExample ⟨3232169984, 16⟩ (by decide) (by decide) (by decide)

/-- Claim C6: for every syntactically valid IPv4 CIDR string with prefix
length 31 or 32, `from_cidr` fails with `MyError::IpNotEnough`. -/
theorem from_cidr_prefix_31_32 (cidr : String) (n : Ipv4Network)
    (hp : parseCidr cidr = some n) (h : n.prefix_len = 31 ∨ n.prefix_len = 32) :
    Ipv4.from_cidr cidr = Except.error MyError.IpNotEnough := by
  unfold Ipv4.from_cidr
  rw [hp]
  dsimp only
  rcases h with h | h <;> rw [h] <;> rfl

/-- Claim C6 witness: the theorem applied to the concrete string
`10.0.0.0/31`. -/
theorem from_cidr_prefix_31_32_witness :
    Ipv4.from_cidr cidrSlash31 = Except.error MyError.IpNotEnough :=
  from_cidr_prefix_31_32 cidrSlash31 ⟨167772160, 31⟩ (by decide) (Or.inl rfl)

/-- Claim C3: for every pool built by `from_cidr` with base `B` and
range `R`, and every offset the sampler can draw from `1 .. R - 1`, the
address returned by `get_ip` lies in the inclusive interval
`[B + 1, B + R - 2]`; in particular it is never the network address `B`
and never the topmost address `B + R - 1`. -/
theorem get_ip_in_block (cidr : String) (n : Ipv4Network) (pool : Ipv4)
    (offset : Nat) (hp : parseCidr cidr = some n)
    (hok : Ipv4.from_cidr cidr = Except.ok pool)
    (h1 : 1 ≤ offset) (h2 : offset < pool.range - 1) :
    pool.base + 1 ≤ pool.get_ip offset ∧
    pool.get_ip offset ≤ pool.base + pool.range - 2 ∧
    pool.get_ip offset ≠ pool.base ∧
    pool.get_ip offset ≠ pool.base + pool.range - 1 := by
  obtain ⟨hbase, hrange, he32, hgt⟩ := from_cidr_ok_inv cidr n pool hp hok
  have haddr := parseCidr_addr_lt cidr n hp
  have hbr : pool.base + pool.range ≤ 2 ^ 32 := by
    rw [hbase, hrange]
    exact network_add_range_le n haddr
  have h32 : (2 : Nat) ^ 32 = 4294967296 := by norm_num
  rw [h32] at hbr
  have hmod : pool.get_ip offset = pool.base + offset := by
    unfold Ipv4.get_ip
    rw [h32]
    exact Nat.mod_eq_of_lt (by omega)
  rw [hmod]
  refine ⟨?_, ?_, ?_, ?_⟩ <;> omega

/-- Claim C3 witness: the theorem applied to the pool built from
`192.167.0.0/16` and the smallest offset the sampler can draw. -/
theorem get_ip_in_block_witness :
    (Ipv4.mk 3232169984 65536).base + 1 ≤ (Ipv4.mk 3232169984 65536).get_ip 1 ∧
    (Ipv4.mk 3232169984 65536).get_ip 1 ≤
      (Ipv4.mk 3232169984 65536).base + (Ipv4.mk 3232169984 65536).range - 2 ∧
    (Ipv4.mk 3232169984 65536).get_ip 1 ≠ (Ipv4.mk 3232169984 65536).base ∧
    (Ipv4.mk 3232169984 65536).get_ip 1 ≠
      (Ipv4.mk 3232169984 65536).base + (Ipv4.mk 3232169984 65536).range - 1 :=
  get_ip_in_block cidrExample ⟨3232169984, 16⟩ ⟨3232169984, 65536⟩ 1
    (by decide) rfl (by decide) (by decide)

/-- Claim C10: for every pool built by `from_cidr`, sampling is total —
the range is strictly greater than 2, so the sampling interval
`1 .. range - 1` is non-empty, the base is the masked network address
(a multiple of the range), and the 32-bit addition `base + offset`
stays below `2 ^ 32` for every offset below the range. -/
theorem get_ip_total (cidr : String) (n : Ipv4Network) (pool : Ipv4)
    (hp : parseCidr cidr = some n)
    (hok : Ipv4.from_cidr cidr = Except.ok pool) :
    2 < pool.range ∧ 1 < pool.range - 1 ∧ pool.base % pool.range = 0 ∧
      ∀ offset : Nat, offset < pool.range → pool.base + offset < 2 ^ 32 := by
  obtain ⟨hbase, hrange, he32, hgt⟩ := from_cidr_ok_inv cidr n pool hp hok
  have haddr := parseCidr_addr_lt cidr n hp
  have hbr : pool.base + pool.range ≤ 2 ^ 32 := by
    rw [hbase, hrange]
    exact network_add_range_le n haddr
  refine ⟨hgt, by omega, ?_, ?_⟩
  · rw [hbase, hrange]
    exact network_mod_range n
  · intro o ho
    omega

/-- Claim C10 witness: the theorem applied to the pool built from
`192.167.0.0/16`. -/
theorem get_ip_total_witness :
    2 < (Ipv4.mk 3232169984 65536).range ∧
    1 < (Ipv4.mk 3232169984 65536).range - 1 ∧
    (Ipv4.mk 3232169984 65536).base % (Ipv4.mk 3232169984 65536).range = 0 ∧
    ∀ offset : Nat, offset < (Ipv4.mk 3232169984 65536).range →
      (Ipv4.mk 3232169984 65536).base + offset < 2 ^ 32 :=
  get_ip_total cidrExample ⟨3232169984, 16⟩ ⟨3232169984, 65536⟩ (by decide) rfl

end FakeDns
